import Mathlib

/-!
Shallow embedding of the session state machine of a distraction-free text
editor (src/main.rs).  The `Editor` structure carries the session fields
(`file`, `content`, `is_loading`, `is_dirty`); `update` is the event handler,
returning the new state together with the list of asynchronous operations it
launches (`Task::none()` is the empty list, `Task::batch` is concatenation).
`find_and_load_file`'s directory scan and adjacent-target selection are
embedded as `listTxtFiles` and `findTarget` over a directory snapshot.
The clock is a `Timestamp` parameter; `newFilename` embeds the
`%Y-%m-%d_%H-%M-%S.txt` formatting of the bootstrap and new-file paths.
-/

/-- Classified I/O error kinds surfaced by the persistence operations
(`io::ErrorKind` restricted to the categories named in the design). -/
inductive IoErrorKind where
  | notFound
  | permissionDenied
  | other
deriving DecidableEq, Repr

/-- The single error type of the program: `enum Error { IoError(io::ErrorKind) }`. -/
inductive Err where
  | IoError (kind : IoErrorKind)
deriving DecidableEq, Repr

/-- Wall-clock reading used by `Local::now()`: the six fields the filename
format extracts. -/
structure Timestamp where
  year : Nat
  month : Nat
  day : Nat
  hour : Nat
  minute : Nat
  second : Nat
deriving DecidableEq, Repr

/-- Decimal digit character of `n % 10`. -/
def digitChar (n : Nat) : Char :=
  match n % 10 with
  | 0 => '0'
  | 1 => '1'
  | 2 => '2'
  | 3 => '3'
  | 4 => '4'
  | 5 => '5'
  | 6 => '6'
  | 7 => '7'
  | 8 => '8'
  | _ => '9'

/-- Two-digit zero-padded decimal rendering (chrono `%m`, `%d`, `%H`, `%M`, `%S`
for in-range values). -/
def pad2 (n : Nat) : String :=
  String.mk [digitChar (n / 10), digitChar n]

/-- Four-digit zero-padded decimal rendering (chrono `%Y` for years below 10000). -/
def pad4 (n : Nat) : String :=
  String.mk [digitChar (n / 1000), digitChar (n / 100), digitChar (n / 10), digitChar n]

/-- `now.format("%Y-%m-%d_%H-%M-%S")`. -/
def formatTimestamp (t : Timestamp) : String :=
  pad4 t.year ++ "-" ++ pad2 t.month ++ "-" ++ pad2 t.day ++ "_" ++
    pad2 t.hour ++ "-" ++ pad2 t.minute ++ "-" ++ pad2 t.second

/-- `format!("{}.txt", now.format("%Y-%m-%d_%H-%M-%S"))`: the bare relative
filename generated at bootstrap and by the new-file action. -/
def newFilename (t : Timestamp) : String :=
  formatTimestamp t ++ ".txt"

/-- An edit action delivered by the text widget: whether it is a
content-changing edit (`action.is_edit()`), and its opaque effect on the
buffer text (`content.perform(action)`). -/
structure EditorAction where
  is_edit : Bool
  apply : String → String

/-- The session state: `struct Editor { file, content, is_loading, is_dirty }`.
The text widget's buffer is embedded as its text. -/
structure Editor where
  file : Option String
  content : String
  is_loading : Bool
  is_dirty : Bool
deriving DecidableEq, Repr

/-- The messages reconciled by `Editor::update`. -/
inductive Message where
  | ActionPerformed (action : EditorAction)
  | FileCreated (result : Except Err String)
  | AutoSave
  | FileSaved (result : Except Err String)
  | WindowOpened
  | WindowClosed
  | OpenPreviousFile
  | OpenNextFile
  | CreateNewFile
  | FileLoaded (result : Except Err (String × String))

/-- The asynchronous tasks an update step can launch.  `saveFile` records the
captured path argument and the captured buffer text; `findAndLoadFile` records
the captured current path and the direction flag (`find_previous`). -/
inductive Op where
  | createNewFile (path : String)
  | saveFile (path : Option String) (contents : String)
  | findAndLoadFile (current : Option String) (find_previous : Bool)
  | focusNext
  | changeModeFullscreen
deriving DecidableEq, Repr

/-- `Editor::new`: initial state (no file, empty buffer, loading, clean) and
its bootstrap tasks: create the freshly named empty file, focus the widget. -/
def EditorNew (now : Timestamp) : Editor × List Op :=
  ({ file := none, content := "", is_loading := true, is_dirty := false },
   [Op.createNewFile (newFilename now), Op.focusNext])

/-- `Editor::update`: one reconciliation step of the session state machine.
Returns the updated state and the operations launched (in source order). -/
def update (now : Timestamp) (e : Editor) (msg : Message) : Editor × List Op :=
  match msg with
  | .ActionPerformed action =>
      ({ e with is_dirty := e.is_dirty || action.is_edit,
                content := action.apply e.content }, [])
  | .FileCreated result =>
      match result with
      | .ok path => ({ e with is_loading := false, file := some path }, [])
      | .error _ => ({ e with is_loading := false }, [])
  | .AutoSave =>
      if e.is_loading then
        (e, [])
      else
        (e, [Op.saveFile e.file e.content])
  | .FileSaved result =>
      match result with
      | .ok path =>
          ({ e with is_loading := false, file := some path, is_dirty := false }, [])
      | .error _ => ({ e with is_loading := false }, [])
  | .WindowClosed =>
      if e.is_dirty && !e.is_loading then
        (e, [Op.saveFile e.file e.content])
      else
        (e, [])
  | .OpenPreviousFile =>
      if e.is_loading then
        (e, [])
      else
        let save_ops := if e.is_dirty then [Op.saveFile e.file e.content] else []
        (e, save_ops ++ [Op.findAndLoadFile e.file true])
  | .OpenNextFile =>
      if e.is_loading then
        (e, [])
      else
        let save_ops := if e.is_dirty then [Op.saveFile e.file e.content] else []
        (e, save_ops ++ [Op.findAndLoadFile e.file false])
  | .CreateNewFile =>
      if e.is_loading then
        (e, [])
      else
        let save_ops := if e.is_dirty then [Op.saveFile e.file e.content] else []
        let file_path := newFilename now
        ({ e with content := "", is_dirty := false },
         save_ops ++ [Op.createNewFile file_path])
  | .FileLoaded result =>
      match result with
      | .ok (path, contents) =>
          ({ e with is_loading := false, file := some path,
                    content := contents, is_dirty := false }, [])
      | .error _ => ({ e with is_loading := false }, [])
  | .WindowOpened =>
      (e, [Op.changeModeFullscreen])

/-- One entry of `fs::read_dir`: its file name and whether it is a regular
file (`path.is_file()`). -/
structure DirEntry where
  name : String
  is_file : Bool
deriving DecidableEq, Repr

/-- `entry.path()`: `read_dir` yields the directory path joined with the
entry name, so entries of an absolute directory are absolute paths. -/
def entryPath (cwd : String) (e : DirEntry) : String :=
  cwd ++ "/" ++ e.name

/-- Characters after the last `sep` in `l` (the whole of `l` when `sep` does
not occur). -/
def afterLast (sep : Char) (l : List Char) : List Char :=
  l.foldl (fun acc c => if c = sep then [] else acc ++ [c]) []

/-- `Path::extension().and_then(|s| s.to_str())`: the part of the file name
after its last dot; `none` when the file name has no dot besides a leading
one. -/
def extOf (p : String) : Option String :=
  match afterLast '/' p.data with
  | [] => none
  | _ :: rest =>
      if '.' ∈ rest then some (String.mk (afterLast '.' rest)) else none

/-- Lexicographic comparison of character lists (the order `Vec<PathBuf>::sort`
uses, restricted to the single-component relative-to-bytes view these paths
have). -/
def charListLe : List Char → List Char → Bool
  | [], _ => true
  | _ :: _, [] => false
  | a :: as, b :: bs => if a = b then charListLe as bs else decide (a < b)

/-- String order used to sort the listing. -/
def strLe (a b : String) : Bool :=
  charListLe a.data b.data

/-- Insert into a `strLe`-sorted list, keeping it sorted. -/
def insertSorted (x : String) : List String → List String
  | [] => [x]
  | y :: ys => if strLe x y then x :: y :: ys else y :: insertSorted x ys

/-- Insertion sort by `strLe`: the embedding of `txt_files.sort()`. -/
def sortStrings : List String → List String
  | [] => []
  | x :: xs => insertSorted x (sortStrings xs)

/-- The directory scan of `find_and_load_file`: keep regular files with
extension `txt`, as their `cwd`-joined paths, sorted ascending. -/
def listTxtFiles (cwd : String) (entries : List DirEntry) : List String :=
  sortStrings
    ((entries.filter
        (fun e => e.is_file && (extOf (entryPath cwd e) == some "txt"))).map
      (entryPath cwd))

/-- `Iterator::position`: index of the first element satisfying `p`. -/
def position (p : α → Bool) : List α → Option Nat
  | [] => none
  | a :: l => if p a then some 0 else (position p l).map (· + 1)

/-- The adjacent-target selection of `find_and_load_file` (lines 319-361):
empty-listing check, locating the current file, and the directional
wraparound choice of the target path. -/
def findTarget (txt_files : List String) (current_file : Option String)
    (find_previous : Bool) : Except Err String :=
  if txt_files.isEmpty then
    .error (.IoError .notFound)
  else
    let current_index :=
      match current_file with
      | some current => position (fun p => p == current) txt_files
      | none => none
    match current_index with
    | some index =>
        if find_previous then
          if index == 0 then
            if txt_files.length > 1 then
              .ok (txt_files.getD (txt_files.length - 1) "")
            else
              .error (.IoError .notFound)
          else
            .ok (txt_files.getD (index - 1) "")
        else
          if index ≥ txt_files.length - 1 then
            if txt_files.length > 1 then
              .ok (txt_files.getD 0 "")
            else
              .error (.IoError .notFound)
          else
            .ok (txt_files.getD (index + 1) "")
    | none => .ok (txt_files.getD 0 "")

/-- `find_and_load_file` over a directory snapshot: scan, select the adjacent
target, then read its contents (an association list models the readable
files; a missing file reads as not-found). -/
def find_and_load_file (cwd : String) (entries : List DirEntry)
    (files : List (String × String)) (current_file : Option String)
    (find_previous : Bool) : Except Err (String × String) :=
  let txt_files := listTxtFiles cwd entries
  match findTarget txt_files current_file find_previous with
  | .error err => .error err
  | .ok target =>
      match files.find? (fun kv => kv.1 == target) with
      | some kv => .ok (target, kv.2)
      | none => .error (.IoError .notFound)

/-! ### Helper lemmas -/

theorem digitChar_ne_slash (n : Nat) : digitChar n ≠ '/' := by
  unfold digitChar
  split <;> decide

theorem slash_not_mem_pad2 (n : Nat) : '/' ∉ (pad2 n).data := by
  intro h
  have h' : '/' ∈ [digitChar (n / 10), digitChar n] := h
  simp only [List.mem_cons, List.not_mem_nil, or_false] at h'
  rcases h' with h' | h' <;> exact digitChar_ne_slash _ h'.symm

theorem slash_not_mem_pad4 (n : Nat) : '/' ∉ (pad4 n).data := by
  intro h
  have h' : '/' ∈ [digitChar (n / 1000), digitChar (n / 100),
      digitChar (n / 10), digitChar n] := h
  simp only [List.mem_cons, List.not_mem_nil, or_false] at h'
  rcases h' with h' | h' | h' | h' <;> exact digitChar_ne_slash _ h'.symm

theorem slash_not_mem_append (a b : String) (ha : '/' ∉ a.data)
    (hb : '/' ∉ b.data) : '/' ∉ (a ++ b).data := by
  rw [String.data_append]
  simp only [List.mem_append, not_or]
  exact ⟨ha, hb⟩

theorem slash_not_mem_newFilename (t : Timestamp) :
    '/' ∉ (newFilename t).data := by
  unfold newFilename formatTimestamp
  repeat' apply slash_not_mem_append
  all_goals first
    | exact slash_not_mem_pad4 _
    | exact slash_not_mem_pad2 _
    | decide

theorem mem_insertSorted (x y : String) (l : List String) :
    x ∈ insertSorted y l ↔ x = y ∨ x ∈ l := by
  induction l with
  | nil => simp [insertSorted]
  | cons z zs ih =>
      by_cases h : strLe y z = true
      · simp only [insertSorted]
        rw [if_pos h]
        simp [List.mem_cons]
      · simp only [insertSorted]
        rw [if_neg h]
        simp only [List.mem_cons, ih]
        tauto

theorem mem_sortStrings (x : String) (l : List String) :
    x ∈ sortStrings l ↔ x ∈ l := by
  induction l with
  | nil => simp [sortStrings]
  | cons y ys ih => simp [sortStrings, mem_insertSorted, ih]

theorem slash_mem_of_mem_listTxtFiles (cwd : String) (entries : List DirEntry)
    (x : String) (hx : x ∈ listTxtFiles cwd entries) : '/' ∈ x.data := by
  unfold listTxtFiles at hx
  rw [mem_sortStrings] at hx
  rcases List.mem_map.1 hx with ⟨en, _, rfl⟩
  unfold entryPath
  simp only [String.data_append, List.mem_append]
  exact Or.inl (Or.inr (by decide))

theorem position_lt_length (p : α → Bool) (l : List α) (i : Nat)
    (h : position p l = some i) : i < l.length := by
  induction l generalizing i with
  | nil => simp [position] at h
  | cons a l ih =>
      by_cases hpa : p a = true
      · simp only [position] at h
        rw [if_pos hpa] at h
        injection h with h
        subst h
        simp only [List.length_cons]
        omega
      · simp only [position] at h
        rw [if_neg hpa, Option.map_eq_some'] at h
        rcases h with ⟨j, hj, rfl⟩
        have := ih j hj
        simp only [List.length_cons]
        omega

theorem position_eq_none (p : α → Bool) (l : List α)
    (h : ∀ x ∈ l, p x = false) : position p l = none := by
  induction l with
  | nil => rfl
  | cons a l ih =>
      have ha := h a (List.mem_cons_self a l)
      simp [position, ha, ih (fun x hx => h x (List.mem_cons_of_mem a hx))]

theorem mem_of_getElem_eq_some (l : List String) (j : Nat) (c : String)
    (h : l[j]? = some c) : c ∈ l := by
  rcases List.getElem?_eq_some.1 h with ⟨hlt, heq⟩
  exact heq ▸ List.getElem_mem hlt

theorem position_of_nodup (l : List String) (i : Nat) (cur : String)
    (hnd : l.Nodup) (hi : l[i]? = some cur) :
    position (fun p => p == cur) l = some i := by
  induction l generalizing i with
  | nil => simp at hi
  | cons a l ih =>
      rcases List.nodup_cons.1 hnd with ⟨hna, hnd'⟩
      cases i with
      | zero =>
          rw [List.getElem?_cons_zero] at hi
          injection hi with hi
          subst hi
          simp [position]
      | succ j =>
          rw [List.getElem?_cons_succ] at hi
          have hcur : cur ∈ l := mem_of_getElem_eq_some l j cur hi
          have hne : (a == cur) = false := by
            rw [beq_eq_false_iff_ne]
            intro h
            exact hna (h ▸ hcur)
          simp only [position]
          rw [if_neg (by simp [hne]), ih j hnd' hi]
          rfl

theorem findTarget_of_not_in_listing (l : List String) (current : Option String)
    (dir : Bool) (hne : l ≠ [])
    (habs : ∀ c, current = some c → c ∉ l) :
    findTarget l current dir = .ok (l.getD 0 "") := by
  have hemp : l.isEmpty = false := by
    cases l with
    | nil => exact absurd rfl hne
    | cons a l => rfl
  unfold findTarget
  rw [if_neg (by simp [hemp])]
  cases current with
  | none => rfl
  | some c =>
      have hpos : position (fun p => p == c) l = none :=
        position_eq_none _ _ (fun x hx => by
          rw [beq_eq_false_iff_ne]
          intro h
          exact habs c rfl (h ▸ hx))
      simp only [hpos]

/-! ### Claims -/

/-- C1 counterexample: start from a session whose load has been reconciled
(current_file is the loaded path "/h/b.txt"); reconciling a stale successful
save of the bootstrap path "2024-01-01_00-00-00.txt" does NOT leave
current_file at the loaded path — the handler adopts the save's own path. -/
theorem C1_counterexample :
    ((update ⟨2024, 1, 1, 0, 0, 0⟩
        ((update ⟨2024, 1, 1, 0, 0, 0⟩
            ⟨some "2024-01-01_00-00-00.txt", "old text", false, false⟩
            (.FileLoaded (.ok ("/h/b.txt", "loaded text")))).1)
        (.FileSaved (.ok "2024-01-01_00-00-00.txt"))).1).file
      ≠ some "/h/b.txt" := by
  decide

/-- C1 (amended): reconciling a stale successful SaveCompleted after a load
has been reconciled updates current_file and dirty using only the save's own
returned path — it adopts that path as current_file and clears dirty — so
current_file afterwards equals the save's path, not the loaded path. -/
theorem C1_stale_save_adopts_save_path (now later : Timestamp) (e : Editor)
    (loadedPath loadedText savePath : String) :
    (update later
        ((update now e (.FileLoaded (.ok (loadedPath, loadedText)))).1)
        (.FileSaved (.ok savePath)))
      = ({ e with is_loading := false, file := some savePath,
                  content := loadedText, is_dirty := false }, []) := by
  rfl

/-- C3: in a listing whose sole element is the current file, the adjacent-file
computation fails with NotFound for both directions, and reconciling the
failed load leaves the buffer and current_file (and dirty) unchanged. -/
theorem C3_sole_file_not_found (cur : String) (dir : Bool) (now : Timestamp)
    (e : Editor) (err : Err) :
    findTarget [cur] (some cur) dir = .error (.IoError .notFound) ∧
    ((update now e (.FileLoaded (.error err))).1.content = e.content ∧
     (update now e (.FileLoaded (.error err))).1.file = e.file ∧
     (update now e (.FileLoaded (.error err))).1.is_dirty = e.is_dirty) := by
  refine ⟨?_, rfl, rfl, rfl⟩
  cases dir <;> simp [findTarget, position]

/-- C4: for a non-empty listing, when no file is open or the current path does
not occur in the listing, the adjacent-file computation returns the first
element of the listing regardless of the requested direction. -/
theorem C4_absent_current_lands_on_first (l : List String)
    (current : Option String) (dir : Bool) (hne : l ≠ [])
    (habs : current = none ∨ ∃ c, current = some c ∧ c ∉ l) :
    findTarget l current dir = .ok (l.getD 0 "") := by
  apply findTarget_of_not_in_listing l current dir hne
  intro c hc
  rcases habs with h | ⟨c', hc', hmem⟩
  · rw [h] at hc
    exact absurd hc (by simp)
  · rw [hc'] at hc
    injection hc with hc
    subst hc
    exact hmem

/-- C4 witness: a current path absent from the two-element listing lands on
the first element in both directions. -/
theorem C4_witness :
    findTarget ["/h/b.txt", "/h/c.txt"] (some "/h/zz.txt") false
      = .ok "/h/b.txt" ∧
    findTarget ["/h/b.txt", "/h/c.txt"] (some "/h/zz.txt") true
      = .ok "/h/b.txt" := by
  constructor <;>
    exact C4_absent_current_lands_on_first ["/h/b.txt", "/h/c.txt"]
      (some "/h/zz.txt") _ (by decide)
      (Or.inr ⟨"/h/zz.txt", rfl, by decide⟩)

/-- C5: reconciling a failed create, save, or load changes nothing in the
session except clearing the loading flag, and launches no operation. -/
theorem C5_failure_only_clears_loading (now : Timestamp) (e : Editor)
    (err : Err) :
    update now e (.FileCreated (.error err))
        = ({ e with is_loading := false }, []) ∧
    update now e (.FileSaved (.error err))
        = ({ e with is_loading := false }, []) ∧
    update now e (.FileLoaded (.error err))
        = ({ e with is_loading := false }, []) :=
  ⟨rfl, rfl, rfl⟩

/-- C6: the autosave tick launches nothing and changes nothing while loading;
otherwise it leaves the state unchanged and launches exactly one save of the
current file and buffer text, regardless of the dirty flag. -/
theorem C6_autosave (now : Timestamp) (e : Editor) :
    (e.is_loading = true → update now e .AutoSave = (e, [])) ∧
    (e.is_loading = false →
      update now e .AutoSave = (e, [Op.saveFile e.file e.content])) := by
  constructor <;> intro h <;> simp [update, h]

/-- C6 witness: the autosave behaviour at a loading state and at a ready
state (the ready state is clean, showing the save fires regardless of dirty). -/
theorem C6_witness :
    update ⟨2024, 1, 1, 0, 0, 0⟩ ⟨none, "t", true, false⟩ .AutoSave
      = (⟨none, "t", true, false⟩, []) ∧
    update ⟨2024, 1, 1, 0, 0, 0⟩ ⟨some "a.txt", "t", false, false⟩ .AutoSave
      = (⟨some "a.txt", "t", false, false⟩,
         [Op.saveFile (some "a.txt") "t"]) :=
  ⟨(C6_autosave ⟨2024, 1, 1, 0, 0, 0⟩ ⟨none, "t", true, false⟩).1 rfl,
   (C6_autosave ⟨2024, 1, 1, 0, 0, 0⟩ ⟨some "a.txt", "t", false, false⟩).2 rfl⟩

/-- C7: a content-changing edit sets the dirty flag; from a dirty state, a
subsequent successful save whose returned path matches the current file at
completion time clears it. -/
theorem C7_dirty_flag (now : Timestamp) (e : Editor) :
    (∀ a : EditorAction, a.is_edit = true →
        ((update now e (.ActionPerformed a)).1).is_dirty = true) ∧
    (∀ p : String, e.is_dirty = true → e.file = some p →
        ((update now e (.FileSaved (.ok p))).1).is_dirty = false) := by
  constructor
  · intro a ha
    simp [update, ha]
  · intro p _ _
    simp [update]

/-- C7 witness: a concrete content-changing edit marks a clean session dirty,
and a save completing with the dirty session's own path clears the flag. -/
theorem C7_witness :
    ((update ⟨2024, 1, 1, 0, 0, 0⟩ ⟨some "a.txt", "x", false, false⟩
        (.ActionPerformed ⟨true, fun s => s ++ "!"⟩)).1).is_dirty = true ∧
    ((update ⟨2024, 1, 1, 0, 0, 0⟩ ⟨some "a.txt", "x!", false, true⟩
        (.FileSaved (.ok "a.txt"))).1).is_dirty = false :=
  ⟨(C7_dirty_flag ⟨2024, 1, 1, 0, 0, 0⟩ ⟨some "a.txt", "x", false, false⟩).1
      ⟨true, fun s => s ++ "!"⟩ rfl,
   (C7_dirty_flag ⟨2024, 1, 1, 0, 0, 0⟩ ⟨some "a.txt", "x!", false, true⟩).2
      "a.txt" rfl rfl⟩

/-- C8: from a ready, dirty state, the new-file event clears the buffer and
the dirty flag in the same step, and launches a save capturing the pre-clear
buffer text together with a create of the freshly generated filename. -/
theorem C8_new_file_saves_preclear_buffer (now : Timestamp) (e : Editor)
    (hl : e.is_loading = false) (hd : e.is_dirty = true) :
    update now e .CreateNewFile
      = ({ e with content := "", is_dirty := false },
         [Op.saveFile e.file e.content,
          Op.createNewFile (newFilename now)]) := by
  simp [update, hl, hd]

/-- C8 witness: the new-file step at a concrete ready dirty session clears
the buffer while the launched save still carries the old buffer text. -/
theorem C8_witness :
    update ⟨2024, 1, 1, 0, 0, 0⟩ ⟨some "a.txt", "old text", false, true⟩
        .CreateNewFile
      = (⟨some "a.txt", "", false, false⟩,
         [Op.saveFile (some "a.txt") "old text",
          Op.createNewFile "2024-01-01_00-00-00.txt"]) := by
  have h := C8_new_file_saves_preclear_buffer ⟨2024, 1, 1, 0, 0, 0⟩
      ⟨some "a.txt", "old text", false, true⟩ rfl rfl
  simpa using h

/-- C2: in a listing of length n > 1 containing the current path at index i,
the adjacent-file computation returns the element at i-1 for Previous
(wrapping to n-1 at i = 0) and the element at i+1 for Next (wrapping to 0 at
i = n-1). -/
theorem C2_adjacent_wraparound (l : List String) (cur : String) (i : Nat)
    (hn : 1 < l.length) (hnd : l.Nodup) (hi : l[i]? = some cur) :
    findTarget l (some cur) true
      = .ok (l.getD (if i = 0 then l.length - 1 else i - 1) "") ∧
    findTarget l (some cur) false
      = .ok (l.getD (if i = l.length - 1 then 0 else i + 1) "") := by
  have hpos := position_of_nodup l i cur hnd hi
  have hilt : i < l.length := position_lt_length _ _ _ hpos
  have hemp : l.isEmpty = false := by
    cases l with
    | nil => simp at hn
    | cons a l => rfl
  constructor
  · unfold findTarget
    rw [if_neg (by simp [hemp])]
    simp only [hpos]
    simp only [if_true]
    by_cases h0 : i = 0
    · subst h0
      simp [hn]
    · rw [if_neg (by simp [h0]), if_neg h0]
  · unfold findTarget
    rw [if_neg (by simp [hemp])]
    simp only [hpos]
    rw [if_neg (by decide)]
    by_cases hlast : i = l.length - 1
    · rw [if_pos (by omega : i ≥ l.length - 1), if_pos hn, if_pos hlast]
    · rw [if_neg (by omega : ¬ i ≥ l.length - 1), if_neg hlast]

/-- C2 witness: in the listing a, b, c with current file b at index 1,
Previous yields a and Next yields c. -/
theorem C2_witness :
    findTarget ["/h/a.txt", "/h/b.txt", "/h/c.txt"] (some "/h/b.txt") true
      = .ok "/h/a.txt" ∧
    findTarget ["/h/a.txt", "/h/b.txt", "/h/c.txt"] (some "/h/b.txt") false
      = .ok "/h/c.txt" := by
  have h := C2_adjacent_wraparound ["/h/a.txt", "/h/b.txt", "/h/c.txt"]
      "/h/b.txt" 1 (by decide) (by decide) (by decide)
  exact ⟨h.1, h.2⟩

/-- C10: the bootstrap create names its file with a bare relative filename
(no slash), while the scan lists cwd-joined paths (each containing a slash),
so the bootstrap path is never found in the listing and both navigation
directions take the land-on-first-element fallback. -/
theorem C10_bootstrap_relative_path_never_matches (t : Timestamp)
    (cwd : String) (entries : List DirEntry) (p : String) (dir : Bool)
    (hcreate : Op.createNewFile p ∈ (EditorNew t).2)
    (hne : listTxtFiles cwd entries ≠ []) :
    p ∉ listTxtFiles cwd entries ∧
    findTarget (listTxtFiles cwd entries) (some p) dir
      = .ok ((listTxtFiles cwd entries).getD 0 "") := by
  have hp : p = newFilename t := by
    simp [EditorNew] at hcreate
    exact hcreate
  subst hp
  have hnot : newFilename t ∉ listTxtFiles cwd entries := fun h =>
    slash_not_mem_newFilename t (slash_mem_of_mem_listTxtFiles cwd entries _ h)
  refine ⟨hnot, ?_⟩
  refine findTarget_of_not_in_listing _ _ _ hne ?_
  intro c hc
  injection hc with hc
  subst hc
  exact hnot

/-- C10 witness: with working directory "/h" containing a.txt and the
bootstrap-created bare name for 2024-01-01 00:00:00, navigation falls back to
the first listing element "/h/a.txt". -/
theorem C10_witness :
    "2024-01-01_00-00-00.txt" ∉ listTxtFiles "/h" [⟨"a.txt", true⟩] ∧
    findTarget (listTxtFiles "/h" [⟨"a.txt", true⟩])
        (some "2024-01-01_00-00-00.txt") false
      = .ok "/h/a.txt" := by
  have h := C10_bootstrap_relative_path_never_matches ⟨2024, 1, 1, 0, 0, 0⟩
      "/h" [⟨"a.txt", true⟩] "2024-01-01_00-00-00.txt" false
      (by decide) (by decide)
  exact ⟨h.1, h.2⟩
